import Mathlib

/-!
Verification of the data-acquisition and derived-metrics pipeline of
GlobalMarketApp (`app.py`).

Shallow embedding conventions:
* A provider response (`yf.download`) is a `ProviderTable`: the flag
  `hasClose` records whether the `Close` column is present (selecting a
  missing column raises, which the source catches), and `rows` is the
  `Close` column, one entry per row, `none` marking a missing (NaN) value.
* A provider is a function `String → String → Except Unit ProviderTable`
  taking ticker and period; `Except.error` models `yf.download` raising.
* Closing prices are rationals; Python `round(x, 2)` (round half to even)
  is modelled by `round2`.
* A metric that Python reports as NaN is modelled as `none`.
* Python code that can raise at a modelled call site returns `Except`.
-/

/-- The floor of a rational, via flooring integer division. -/
def ratFloorAux (q : ℚ) : ℤ := q.num.fdiv q.den

/-- Round a rational to the nearest integer, ties to even — the behaviour of
Python `round` on an exactly-representable value. -/
def roundHalfEven (q : ℚ) : ℤ :=
  if q - ⌊q⌋ < 1/2 then ⌊q⌋
  else if 1/2 < q - ⌊q⌋ then ⌊q⌋ + 1
  else if ⌊q⌋ % 2 = 0 then ⌊q⌋ else ⌊q⌋ + 1

/-- Python `round(x, 2)`. -/
def round2 (q : ℚ) : ℚ := (roundHalfEven (q * 100) : ℚ) / 100

/-- One provider response: whether a `Close` column is present, and the
`Close` column itself (`none` = missing/NaN cell).  `rows = []` models
`df.empty`. -/
structure ProviderTable where
  hasClose : Bool
  rows : List (Option ℚ)
deriving DecidableEq

/-- `df[["Close"]].dropna()`: drop the rows whose closing price is missing,
keeping order. -/
def dropna (rows : List (Option ℚ)) : List ℚ := rows.filterMap id

/-- `fetch_series` (app.py lines 106-124): for each (label, ticker) in order,
download; on any raised error skip the label; skip when the frame is empty
(checked before column selection); selecting a missing `Close` column raises
(KeyError), hence also skips; otherwise keep `(label, dropna closes)`. -/
def fetch_series (provider : String → String → Except Unit ProviderTable) :
    List (String × String) → String → List (String × List ℚ)
  | [], _ => []
  | (label, ticker) :: rest, period =>
    match provider ticker period with
    | Except.error _ => fetch_series provider rest period
    | Except.ok df =>
      if df.rows.isEmpty then fetch_series provider rest period
      else if df.hasClose then
        (label, dropna df.rows) :: fetch_series provider rest period
      else fetch_series provider rest period

/-- `pct_change_over_period` (app.py lines 137-142): NaN when fewer than two
rows, else `(end / start - 1) * 100` from first and last close. -/
def pct_change_over_period (closes : List ℚ) : Option ℚ :=
  if closes.length < 2 then none
  else closes.head?.bind fun start =>
    closes.getLast?.map fun stop => (stop / start - 1) * 100

/-- `one_day_change` (app.py lines 144-147): NaN when fewer than two rows,
else `pct_change().iloc[-1] * 100`, i.e. last over second-to-last. -/
def one_day_change (closes : List ℚ) : Option ℚ :=
  if closes.length < 2 then none
  else closes.dropLast.getLast?.bind fun prev =>
    closes.getLast?.map fun last => (last / prev - 1) * 100

/-- The `"Period %"` cell of a row (app.py line 154):
`round(pct_change_over_period(df), 2)`; `round` keeps NaN as NaN. -/
def rowPeriodPct (closes : List ℚ) : Option ℚ :=
  (pct_change_over_period closes).map round2

/-- The `"1D %"` cell of a row (app.py line 155, toggle on):
`round(one_day_change(df), 2)`. -/
def rowOneDayPct (closes : List ℚ) : Option ℚ :=
  (one_day_change closes).map round2

/-- One row of the returns table (app.py lines 149-157; the static group
column is presentation only and not modelled). -/
structure MetricsRow where
  label : String
  periodPct : Option ℚ
  oneDayPct : Option ℚ
  lastClose : ℚ
deriving DecidableEq

/-- Build one table row (app.py lines 151-156).  `df["Close"].iloc[-1]`
raises IndexError on an empty series, modelled by `Except.error`. -/
def buildRow (label : String) (closes : List ℚ) : Except Unit MetricsRow :=
  match closes.getLast? with
  | none => Except.error ()
  | some last =>
    Except.ok ⟨label, rowPeriodPct closes, rowOneDayPct closes, round2 last⟩

/-- Build all table rows (app.py lines 149-157); the first raising row
aborts the script run. -/
def buildRows : List (String × List ℚ) → Except Unit (List MetricsRow)
  | [] => Except.ok []
  | (label, closes) :: rest =>
    match buildRow label closes, buildRows rest with
    | Except.ok r, Except.ok rs => Except.ok (r :: rs)
    | Except.error e, _ => Except.error e
    | Except.ok _, Except.error e => Except.error e

/-- Ordering on `"Period %"` cells used by
`sort_values(by="Period %", ascending=True, na_position="last")`:
numeric values ascending, NaN after everything. -/
def pctLe (a b : Option ℚ) : Prop :=
  match a, b with
  | some x, some y => x ≤ y
  | some _, none => True
  | none, some _ => False
  | none, none => True

/-- The same ordering descending on the numeric values, NaN still last. -/
def pctGe (a b : Option ℚ) : Prop :=
  match a, b with
  | some x, some y => y ≤ x
  | some _, none => True
  | none, some _ => False
  | none, none => True

instance : DecidableRel pctLe := fun a b =>
  match a, b with
  | some x, some y => inferInstanceAs (Decidable (x ≤ y))
  | some _, none => inferInstanceAs (Decidable True)
  | none, some _ => inferInstanceAs (Decidable False)
  | none, none => inferInstanceAs (Decidable True)

instance : DecidableRel pctGe := fun a b =>
  match a, b with
  | some x, some y => inferInstanceAs (Decidable (y ≤ x))
  | some _, none => inferInstanceAs (Decidable True)
  | none, some _ => inferInstanceAs (Decidable False)
  | none, none => inferInstanceAs (Decidable True)

/-- Row comparison for the full-table sort (app.py line 159). -/
def rowLe (a b : MetricsRow) : Prop := pctLe a.periodPct b.periodPct

/-- Row comparison for the descending top slice. -/
def rowGe (a b : MetricsRow) : Prop := pctGe a.periodPct b.periodPct

instance : DecidableRel rowLe := fun a b =>
  inferInstanceAs (Decidable (pctLe a.periodPct b.periodPct))

instance : DecidableRel rowGe := fun a b =>
  inferInstanceAs (Decidable (pctGe a.periodPct b.periodPct))

theorem pctLe_total : ∀ a b : Option ℚ, pctLe a b ∨ pctLe b a
  | some x, some y => le_total x y
  | some _, none => Or.inl trivial
  | none, some _ => Or.inr trivial
  | none, none => Or.inl trivial

theorem pctLe_trans : ∀ a b c : Option ℚ, pctLe a b → pctLe b c → pctLe a c
  | some _, some _, some _, hab, hbc => le_trans hab hbc
  | some _, some _, none, _, _ => trivial
  | some _, none, some _, _, hbc => hbc.elim
  | some _, none, none, _, _ => trivial
  | none, some _, some _, hab, _ => hab.elim
  | none, some _, none, hab, _ => hab.elim
  | none, none, some _, _, hbc => hbc.elim
  | none, none, none, _, _ => trivial

theorem pctGe_total : ∀ a b : Option ℚ, pctGe a b ∨ pctGe b a
  | some x, some y => (le_total y x).imp id id
  | some _, none => Or.inl trivial
  | none, some _ => Or.inr trivial
  | none, none => Or.inl trivial

theorem pctGe_trans : ∀ a b c : Option ℚ, pctGe a b → pctGe b c → pctGe a c
  | some _, some _, some _, hab, hbc => le_trans hbc hab
  | some _, some _, none, _, _ => trivial
  | some _, none, some _, _, hbc => hbc.elim
  | some _, none, none, _, _ => trivial
  | none, some _, some _, hab, _ => hab.elim
  | none, some _, none, hab, _ => hab.elim
  | none, none, some _, _, hbc => hbc.elim
  | none, none, none, _, _ => trivial

instance : IsTotal MetricsRow rowLe :=
  ⟨fun a b => pctLe_total a.periodPct b.periodPct⟩

instance : IsTrans MetricsRow rowLe :=
  ⟨fun a b c => pctLe_trans a.periodPct b.periodPct c.periodPct⟩

instance : IsTotal MetricsRow rowGe :=
  ⟨fun a b => pctGe_total a.periodPct b.periodPct⟩

instance : IsTrans MetricsRow rowGe :=
  ⟨fun a b c => pctGe_trans a.periodPct b.periodPct c.periodPct⟩

/-- `table = pd.DataFrame(rows).sort_values(by="Period %", ascending=True,
na_position="last")` (app.py line 159): sorted ascending with absent
values after all numeric ones. -/
def sortRows (rows : List MetricsRow) : List MetricsRow :=
  List.insertionSort rowLe rows

/-- `table.nsmallest(10, "Period %")` (app.py line 171): pandas `nsmallest`
excludes rows whose key is NaN, sorts ascending, takes `n`. -/
def nsmallestRows (n : ℕ) (rows : List MetricsRow) : List MetricsRow :=
  (List.insertionSort rowLe (rows.filter fun r => r.periodPct.isSome)).take n

/-- `table.nlargest(10, "Period %")` (app.py line 174): pandas `nlargest`
excludes rows whose key is NaN, sorts descending, takes `n`. -/
def nlargestRows (n : ℕ) (rows : List MetricsRow) : List MetricsRow :=
  (List.insertionSort rowGe (rows.filter fun r => r.periodPct.isSome)).take n

/-- `normalize_to_100` (spec 4.2; inlined in app.py lines 206 and 221):
`s / s.iloc[0] * 100.0`. -/
def normalize_to_100 (closes : List ℚ) : List ℚ :=
  match closes with
  | [] => []
  | c0 :: _ => closes.map fun c => c / c0 * 100

/-- The combined-chart application site (app.py lines 204-206):
`s = s / s.iloc[0] * 100.0` with no emptiness guard, so `s.iloc[0]`
raises IndexError on an empty series. -/
def chart_normalize (closes : List ℚ) : Except Unit (List ℚ) :=
  match closes with
  | [] => Except.error ()
  | c0 :: _ => Except.ok (closes.map fun c => c / c0 * 100)

/-- The per-group mini-chart application site (app.py lines 219-221):
normalization runs only under the guard `s.shape[0] > 0`; an empty series
is passed through unchanged. -/
def mini_chart_normalize (closes : List ℚ) : List ℚ :=
  if 0 < closes.length then normalize_to_100 closes else closes

/-- The script-level outcome after the fetch (app.py lines 128-159):
`st.error` + `st.stop()` when the fetch result is empty; otherwise the rows
loop either raises (uncaught, ending the run with a traceback) or renders
the sorted table. -/
inductive Outcome
  | blocked
  | rendered (table : List MetricsRow)
  | crashed
deriving DecidableEq

/-- The fetch-then-tabulate pipeline (app.py lines 128-159). -/
def pipeline (provider : String → String → Except Unit ProviderTable)
    (tickers : List (String × String)) (period : String) : Outcome :=
  let data := fetch_series provider tickers period
  if data.isEmpty then Outcome.blocked
  else
    match buildRows data with
    | Except.error _ => Outcome.crashed
    | Except.ok rows => Outcome.rendered (sortRows rows)

/-- A concrete provider exercising every branch of `fetch_series`:
ticker AAA raises, BBB returns two good rows, CCC returns an empty frame,
and every other ticker returns one row whose close is missing (NaN). -/
def quirkProvider : String → String → Except Unit ProviderTable := fun t _ =>
  if t = "AAA" then Except.error ()
  else if t = "BBB" then Except.ok ⟨true, [some 1, some 2]⟩
  else if t = "CCC" then Except.ok ⟨true, []⟩
  else Except.ok ⟨true, [none]⟩

/-- Modelled from the spec: the keyed time-boxed memo cache that
`@st.cache_data(ttl=600)` (app.py line 106) wraps around `fetch_series`,
and that `st.cache_data.clear()` (app.py line 28) empties; the cache
implementation itself lives in the UI framework, outside this repository.
`entries` maps a key to its value and store time; `calls` counts how many
times the underlying provider batch was actually executed. -/
structure CacheState (κ α : Type) where
  entries : List (κ × α × ℕ)
  calls : ℕ
deriving DecidableEq

/-- Modelled from the spec: get-or-compute against the memo.  An entry is a
hit while its age is below the time-to-live; a miss runs the computation,
counts it, and stores the fresh entry. -/
def getOrCompute {κ α : Type} [DecidableEq κ] (compute : κ → α)
    (ttl now : ℕ) (k : κ) (st : CacheState κ α) : α × CacheState κ α :=
  match st.entries.find? (fun e => decide (e.1 = k) && decide (now - e.2.2 < ttl)) with
  | some e => (e.2.1, st)
  | none =>
    let v := compute k
    (v, ⟨(k, v, now) :: st.entries, st.calls + 1⟩)

/-- Modelled from the spec: `st.cache_data.clear()` — drop every memo entry
immediately, regardless of age. -/
def clearCache {κ α : Type} (st : CacheState κ α) : CacheState κ α :=
  ⟨[], st.calls⟩

/-- The cache state for the memoized fetch: keyed by the exact
(tickers, period) input. -/
def FetchCache : Type :=
  CacheState (List (String × String) × String) (List (String × List ℚ))

/-- The state before any fetch has run. -/
def emptyFetchCache : FetchCache := ⟨[], 0⟩

/-- The memoized fetch as called at app.py line 128: `fetch_series` behind
the 600-second memo described in the spec. -/
def cachedFetchSeries (provider : String → String → Except Unit ProviderTable)
    (now : ℕ) (tickers : List (String × String)) (period : String)
    (st : FetchCache) : List (String × List ℚ) × FetchCache :=
  getOrCompute (fun k => fetch_series provider k.1 k.2) 600 now
    (tickers, period) st

/-- Any entry of a fetch result comes from a requested label whose download
succeeded with a non-empty frame carrying a `Close` column, and its series
is that frame's `Close` column with missing rows dropped. -/
theorem fetch_series_mem_elim
    (provider : String → String → Except Unit ProviderTable) (period : String) :
    ∀ (tickers : List (String × String)) (label : String) (s : List ℚ),
      (label, s) ∈ fetch_series provider tickers period →
      ∃ tk df, (label, tk) ∈ tickers ∧ provider tk period = Except.ok df ∧
        df.rows ≠ [] ∧ df.hasClose = true ∧ s = dropna df.rows := by
  intro tickers
  induction tickers with
  | nil => intro label s h; simp [fetch_series] at h
  | cons lt rest ih =>
    obtain ⟨l, t⟩ := lt
    intro label s h
    rw [fetch_series] at h
    cases hp : provider t period with
    | error e =>
      simp only [hp] at h
      obtain ⟨tk, df, hmem, rest⟩ := ih label s h
      exact ⟨tk, df, List.mem_cons_of_mem _ hmem, rest⟩
    | ok df =>
      simp only [hp] at h
      by_cases he : df.rows.isEmpty
      · rw [if_pos he] at h
        obtain ⟨tk, df2, hmem, rest⟩ := ih label s h
        exact ⟨tk, df2, List.mem_cons_of_mem _ hmem, rest⟩
      · rw [if_neg he] at h
        by_cases hc : df.hasClose
        · rw [if_pos hc] at h
          rcases List.mem_cons.mp h with heq | htail
          · obtain ⟨h1, h2⟩ := Prod.mk.injEq .. ▸ heq
            refine ⟨t, df, ?_, ?_, ?_, hc, ?_⟩
            · exact h1 ▸ List.mem_cons_self _ _
            · exact hp
            · simpa [List.isEmpty_iff] using he
            · exact h2
          · obtain ⟨tk, df2, hmem, rest⟩ := ih label s htail
            exact ⟨tk, df2, List.mem_cons_of_mem _ hmem, rest⟩
        · simp only [hc, if_false] at h
          obtain ⟨tk, df2, hmem, rest⟩ := ih label s h
          exact ⟨tk, df2, List.mem_cons_of_mem _ hmem, rest⟩

/-- `dropna` keeps exactly the present values: mapping the result back into
the option column gives the column filtered to its present cells. -/
theorem dropna_map_some (rows : List (Option ℚ)) :
    (dropna rows).map some = rows.filter fun o => o.isSome := by
  induction rows with
  | nil => rfl
  | cons o rest ih =>
    cases o with
    | none => simpa [dropna, List.filterMap_cons] using ih
    | some x => simpa [dropna, List.filterMap_cons] using ih

/-- A cache hit: an entry for the key whose age is below the time-to-live is
returned as is, without running the computation or touching the state. -/
theorem getOrCompute_hit {κ α : Type} [DecidableEq κ] (compute : κ → α)
    (ttl now t c : ℕ) (k : κ) (v : α) (rest : List (κ × α × ℕ))
    (h : now - t < ttl) :
    getOrCompute compute ttl now k ⟨(k, v, t) :: rest, c⟩
      = (v, ⟨(k, v, t) :: rest, c⟩) := by
  have hf : List.find?
      (fun e : κ × α × ℕ => decide (e.1 = k) && decide (now - e.2.2 < ttl))
      ((k, v, t) :: rest) = some (k, v, t) :=
    List.find?_cons_of_pos _ (by simp [h])
  simp [getOrCompute, hf]

/-- No none survives `pctLe` to the right of a none. -/
theorem pctLe_none_left {a b : Option ℚ} (h : pctLe a b) (ha : a = none) :
    b = none := by
  subst ha
  cases b with
  | none => rfl
  | some y => exact h.elim

/-- No none survives `pctGe` to the right of a none. -/
theorem pctGe_none_left {a b : Option ℚ} (h : pctGe a b) (ha : a = none) :
    b = none := by
  subst ha
  cases b with
  | none => rfl
  | some y => exact h.elim

/-- In a ranked list, a row with an absent period change is never followed
by one with a numeric value. -/
def absentLast (l : List MetricsRow) : Prop :=
  List.Pairwise (fun a b => a.periodPct = none → b.periodPct = none) l

theorem absentLast_of_isSome (l : List MetricsRow)
    (h : ∀ r ∈ l, r.periodPct.isSome) : absentLast l := by
  induction l with
  | nil => exact List.Pairwise.nil
  | cons a t ih =>
    refine List.Pairwise.cons (fun b _ ha => ?_)
      (ih fun r hr => h r (List.mem_cons_of_mem a hr))
    have := h a (List.mem_cons_self a t)
    rw [ha] at this
    exact absurd this (by simp)

/-- C1: evaluated at the failing input.  fetch over {A: raises, B: two good
rows, C: empty frame, D: one row with missing close} does isolate the raising
and empty tickers and keeps B, but D — whose response holds no usable
closing-price data — is NOT omitted: it appears mapped to an empty series. -/
theorem fetch_series_quirk_eval :
    fetch_series quirkProvider
      [("A", "AAA"), ("B", "BBB"), ("C", "CCC"), ("D", "DDD")] "1mo"
      = [("B", [1, 2]), ("D", [])] := rfl

/-- C2: a series with at least two points and nonzero first close gets the
period-change cell `(last / first - 1) * 100` rounded to 2 decimal places;
a series with fewer than two points gets an absent (NaN) cell, not zero. -/
theorem period_change_pct_spec :
    (∀ (s : List ℚ) (a b : ℚ), 2 ≤ s.length → s.head? = some a →
        s.getLast? = some b → a ≠ 0 →
        rowPeriodPct s = some (round2 ((b / a - 1) * 100)))
  ∧ ∀ s : List ℚ, s.length < 2 → rowPeriodPct s = none := by
  constructor
  · intro s a b hlen hh hl _
    have hnl : ¬ s.length < 2 := by omega
    simp [rowPeriodPct, pct_change_over_period, hnl, hh, hl]
  · intro s h
    simp [rowPeriodPct, pct_change_over_period, h]

theorem period_change_pct_witness :
    rowPeriodPct [100, 105, 98] = some (round2 ((98 / 100 - 1) * 100))
  ∧ rowPeriodPct [42] = none :=
  ⟨period_change_pct_spec.1 [100, 105, 98] 100 98 (by decide) rfl rfl
      (by norm_num),
   period_change_pct_spec.2 [42] (by decide)⟩

/-- C3: a series with at least two points gets the one-day cell
`(last / second_to_last - 1) * 100` rounded to 2 decimal places — on closes
[100, 105, 98] that is -6.67 — while a series with fewer than two points
gets an absent (NaN) cell, not zero. -/
theorem one_day_change_spec :
    (∀ (s : List ℚ) (p b : ℚ), 2 ≤ s.length → s.dropLast.getLast? = some p →
        s.getLast? = some b →
        rowOneDayPct s = some (round2 ((b / p - 1) * 100)))
  ∧ rowOneDayPct [100, 105, 98] = some (-667 / 100)
  ∧ ∀ s : List ℚ, s.length < 2 → rowOneDayPct s = none := by
  refine ⟨?_, ?_, ?_⟩
  · intro s p b hlen hp hl
    have hnl : ¬ s.length < 2 := by omega
    simp [rowOneDayPct, one_day_change, hnl, hp, hl]
  · have h : rowOneDayPct [100, 105, 98]
        = some (round2 ((98 / 105 - 1) * 100)) := rfl
    rw [h]
    norm_num [round2, roundHalfEven]
  · intro s h
    simp [rowOneDayPct, one_day_change, h]

theorem one_day_change_witness :
    rowOneDayPct [100, 105, 98] = some (round2 ((98 / 105 - 1) * 100))
  ∧ rowOneDayPct [42] = none :=
  ⟨(one_day_change_spec.1 [100, 105, 98] 105 98 (by decide) rfl rfl),
   one_day_change_spec.2.2 [42] (by decide)⟩

/-- C4: normalizing a nonempty series with nonzero first close keeps its
length, sends the i-th close to `close_i / close_0 * 100`, and so starts
at exactly 100. -/
theorem normalize_to_100_spec (s : List ℚ) (c0 : ℚ)
    (hh : s.head? = some c0) (h0 : c0 ≠ 0) :
    (normalize_to_100 s).length = s.length
  ∧ (∀ i : ℕ, (normalize_to_100 s)[i]? = s[i]?.map fun c => c / c0 * 100)
  ∧ (normalize_to_100 s).head? = some 100 := by
  cases s with
  | nil => exact absurd hh (by simp)
  | cons x xs =>
    obtain rfl : x = c0 := by simpa using hh
    refine ⟨by simp [normalize_to_100], fun i => ?_, ?_⟩
    · exact List.getElem?_map (fun c => c / x * 100) (x :: xs) i
    · simp [normalize_to_100, div_self h0]

theorem normalize_to_100_spec_witness :
    (normalize_to_100 [50]).length = 1
  ∧ (normalize_to_100 [50]).head? = some 100 :=
  ⟨(normalize_to_100_spec [50] 50 rfl (by norm_num)).1,
   (normalize_to_100_spec [50] 50 rfl (by norm_num)).2.2⟩

/-- C5 counterexample: the combined-chart application site is not guarded —
on the empty series it raises (IndexError reading `s.iloc[0]`) instead of
yielding an absent or empty result. -/
theorem chart_normalize_empty_raises :
    chart_normalize [] = Except.error () := rfl

/-- C5 (amended): only the per-group mini-chart site guards the empty
series, passing it through unchanged without reading a first element; the
combined-chart site is unguarded and raises on an empty series; every
nonempty series is normalized to `close_i / close_0 * 100` at both sites. -/
theorem normalize_guard_sites :
    mini_chart_normalize [] = []
  ∧ ∀ s : List ℚ, s ≠ [] →
      chart_normalize s = Except.ok (normalize_to_100 s)
      ∧ mini_chart_normalize s = normalize_to_100 s := by
  refine ⟨rfl, fun s hs => ?_⟩
  cases s with
  | nil => exact absurd rfl hs
  | cons x xs => exact ⟨rfl, by simp [mini_chart_normalize]⟩

theorem normalize_guard_sites_witness :
    chart_normalize [50] = Except.ok (normalize_to_100 [50])
  ∧ mini_chart_normalize [50] = normalize_to_100 [50] :=
  normalize_guard_sites.2 [50] (by simp)

/-- C6: every series the fetch returns is the `Close` column of its label's
successful response with the missing (NaN) rows dropped — mapped back into
the optional column it equals the column filtered to its present cells, so
it contains no missing closing price. -/
theorem fetch_series_no_missing_close
    (provider : String → String → Except Unit ProviderTable)
    (period : String) (tickers : List (String × String))
    (label : String) (s : List ℚ)
    (h : (label, s) ∈ fetch_series provider tickers period) :
    ∃ tk df, (label, tk) ∈ tickers ∧ provider tk period = Except.ok df ∧
      s.map some = df.rows.filter fun o => o.isSome := by
  obtain ⟨tk, df, hmem, hok, _, _, hs⟩ :=
    fetch_series_mem_elim provider period tickers label s h
  exact ⟨tk, df, hmem, hok, by rw [hs, dropna_map_some]⟩

theorem fetch_series_no_missing_close_witness :
    (("B", [(1 : ℚ), 2]) ∈ fetch_series quirkProvider
        [("A", "AAA"), ("B", "BBB"), ("C", "CCC"), ("D", "DDD")] "1mo")
  ∧ ∃ tk df,
      (("B" : String), tk) ∈ [("A", "AAA"), ("B", "BBB"), ("C", "CCC"), ("D", "DDD")]
      ∧ quirkProvider tk "1mo" = Except.ok df
      ∧ ([(1 : ℚ), 2]).map some = df.rows.filter fun o => o.isSome :=
  have hm : ("B", [(1 : ℚ), 2]) ∈ fetch_series quirkProvider
      [("A", "AAA"), ("B", "BBB"), ("C", "CCC"), ("D", "DDD")] "1mo" :=
    List.mem_cons_self _ _
  ⟨hm, fetch_series_no_missing_close quirkProvider "1mo" _ "B" _ hm⟩

/-- C7: in the full table (ascending sort with NaN last) and in both top-10
slices (which exclude NaN keys), a row with an absent period change never
stands ahead of a row with a numeric one. -/
theorem ranking_absent_last (rows : List MetricsRow) :
    absentLast (sortRows rows)
  ∧ absentLast (nsmallestRows 10 rows)
  ∧ absentLast (nlargestRows 10 rows) := by
  refine ⟨?_, ?_, ?_⟩
  · exact List.Pairwise.imp (fun hab ha => pctLe_none_left hab ha)
      (List.sorted_insertionSort rowLe rows)
  · refine absentLast_of_isSome _ fun r hr => ?_
    have h1 := List.take_subset 10 _ hr
    have h2 := (List.perm_insertionSort rowLe _).subset h1
    simpa using (List.mem_filter.mp h2).2
  · refine absentLast_of_isSome _ fun r hr => ?_
    have h1 := List.take_subset 10 _ hr
    have h2 := (List.perm_insertionSort rowGe _).subset h1
    simpa using (List.mem_filter.mp h2).2

theorem ranking_absent_last_witness :
    absentLast (sortRows [⟨"x", none, none, 0⟩, ⟨"y", some 1, none, 1⟩])
  ∧ absentLast (nsmallestRows 10 [⟨"x", none, none, 0⟩, ⟨"y", some 1, none, 1⟩])
  ∧ absentLast (nlargestRows 10 [⟨"x", none, none, 0⟩, ⟨"y", some 1, none, 1⟩]) :=
  ranking_absent_last [⟨"x", none, none, 0⟩, ⟨"y", some 1, none, 1⟩]

/-- C8: evaluated outcomes.  When every ticker fails the script blocks with
the user-visible error; but a batch whose one label came back with rows that
all miss the close (ticker D) is kept as an empty series, and building its
table row then raises IndexError: the run dies instead of continuing with
partial results. -/
theorem pipeline_outcomes_eval :
    pipeline quirkProvider [("A", "AAA"), ("C", "CCC")] "1mo" = Outcome.blocked
  ∧ pipeline quirkProvider [("B", "BBB"), ("D", "DDD")] "1mo" = Outcome.crashed :=
  ⟨rfl, rfl⟩

/-- C9: the memoized fetch.  The first call computes and stores; a second
call with the identical (tickers, period) key within the 600-second window
returns the cached result with the provider-call count unchanged; clearing
the cache (manual refresh) makes the next call, still within the window,
compute afresh. -/
theorem cached_fetch_memo_spec
    (provider : String → String → Except Unit ProviderTable)
    (tickers : List (String × String)) (period : String) (t1 t2 : ℕ)
    (h : t2 - t1 < 600) :
    cachedFetchSeries provider t1 tickers period emptyFetchCache
      = (fetch_series provider tickers period,
         ⟨[((tickers, period), fetch_series provider tickers period, t1)], 1⟩)
  ∧ cachedFetchSeries provider t2 tickers period
      ⟨[((tickers, period), fetch_series provider tickers period, t1)], 1⟩
      = (fetch_series provider tickers period,
         ⟨[((tickers, period), fetch_series provider tickers period, t1)], 1⟩)
  ∧ cachedFetchSeries provider t2 tickers period
      (clearCache ⟨[((tickers, period), fetch_series provider tickers period, t1)], 1⟩)
      = (fetch_series provider tickers period,
         ⟨[((tickers, period), fetch_series provider tickers period, t2)], 2⟩) := by
  refine ⟨rfl, ?_, rfl⟩
  exact getOrCompute_hit _ 600 t2 t1 1 (tickers, period)
    (fetch_series provider tickers period) [] h

theorem cached_fetch_memo_witness :
    cachedFetchSeries quirkProvider 0 [("B", "BBB")] "1mo" emptyFetchCache
      = (fetch_series quirkProvider [("B", "BBB")] "1mo",
         ⟨[(([("B", "BBB")], "1mo"), fetch_series quirkProvider [("B", "BBB")] "1mo", 0)], 1⟩)
  ∧ cachedFetchSeries quirkProvider 599 [("B", "BBB")] "1mo"
      ⟨[(([("B", "BBB")], "1mo"), fetch_series quirkProvider [("B", "BBB")] "1mo", 0)], 1⟩
      = (fetch_series quirkProvider [("B", "BBB")] "1mo",
         ⟨[(([("B", "BBB")], "1mo"), fetch_series quirkProvider [("B", "BBB")] "1mo", 0)], 1⟩)
  ∧ cachedFetchSeries quirkProvider 599 [("B", "BBB")] "1mo"
      (clearCache ⟨[(([("B", "BBB")], "1mo"), fetch_series quirkProvider [("B", "BBB")] "1mo", 0)], 1⟩)
      = (fetch_series quirkProvider [("B", "BBB")] "1mo",
         ⟨[(([("B", "BBB")], "1mo"), fetch_series quirkProvider [("B", "BBB")] "1mo", 599)], 2⟩) :=
  cached_fetch_memo_spec quirkProvider [("B", "BBB")] "1mo" 0 599 (by decide)

/-- C10: every label of the fetch result was requested, and its series is
the one fetched for that label's own ticker (the close column of that
ticker's successful response, missing rows dropped). -/
theorem fetch_series_subset_requested
    (provider : String → String → Except Unit ProviderTable)
    (period : String) (tickers : List (String × String))
    (label : String) (s : List ℚ)
    (h : (label, s) ∈ fetch_series provider tickers period) :
    ∃ tk, (label, tk) ∈ tickers ∧
      ∃ df, provider tk period = Except.ok df ∧ s = dropna df.rows := by
  obtain ⟨tk, df, hmem, hok, _, _, hs⟩ :=
    fetch_series_mem_elim provider period tickers label s h
  exact ⟨tk, hmem, df, hok, hs⟩

theorem fetch_series_subset_requested_witness :
    (("D", ([] : List ℚ)) ∈ fetch_series quirkProvider
        [("A", "AAA"), ("B", "BBB"), ("C", "CCC"), ("D", "DDD")] "1mo")
  ∧ ∃ tk,
      (("D" : String), tk) ∈ [("A", "AAA"), ("B", "BBB"), ("C", "CCC"), ("D", "DDD")]
      ∧ ∃ df, quirkProvider tk "1mo" = Except.ok df ∧ ([] : List ℚ) = dropna df.rows :=
  have hm : ("D", ([] : List ℚ)) ∈ fetch_series quirkProvider
      [("A", "AAA"), ("B", "BBB"), ("C", "CCC"), ("D", "DDD")] "1mo" :=
    List.mem_cons_of_mem _ (List.mem_cons_self _ _)
  ⟨hm, fetch_series_subset_requested quirkProvider "1mo" _ "D" _ hm⟩
